import Mathlib

/-!
Verification of the auto-launch registry logic (`src/windows.rs`).

The module manages two Windows registry locations under a chosen root key:
the launch-registration key (`...\CurrentVersion\Run`, string values) and the
startup-manager override key (`...\StartupApproved\Run`, byte-sequence
values).  The registry itself is an external collaborator; it is embedded
here as a finite map from key paths to key states, where a key state is
either absent, present with a list of named values, or failing with an
arbitrary HRESULT error code.
-/

namespace AutoLaunchSpec

/-- HRESULT error codes, modelled as natural numbers. -/
abbrev HRESULT := Nat

/-- `HRESULT::from_win32(0x80070002)`: the distinguished not-found code. -/
def E_FILENOTFOUND : HRESULT := 0x80070002

/-- Error code returned by `get_string` when the stored value has a
non-string type (win32 ERROR_UNSUPPORTED_TYPE). -/
def ERROR_UNSUPPORTED_TYPE : HRESULT := 0x8007065E

/-- A registry value: either a string (REG_SZ) or a raw byte sequence
(REG_BINARY). -/
inductive RegValue : Type
  | str (s : String)
  | bytes (b : List Nat)
deriving DecidableEq

/-- UTF-16 code units of a character (with surrogate pairs beyond the BMP). -/
def utf16Units (c : Char) : List Nat :=
  let n := c.toNat
  if n < 0x10000 then [n]
  else
    let v := n - 0x10000
    [0xD800 + v / 0x400, 0xDC00 + v % 0x400]

/-- Raw little-endian UTF-16 bytes of a string, with the terminating null
code unit, as REG_SZ data is laid out. -/
def utf16leBytes (s : String) : List Nat :=
  ((s.data.flatMap utf16Units) ++ [0]).flatMap (fun u => [u % 256, u / 256])

/-- The raw data bytes of a registry value, as dereferencing a
`windows_registry::Value` yields them. -/
def RegValue.asBytes : RegValue → List Nat
  | .str s => utf16leBytes s
  | .bytes b => b

/-- The named values held by one open registry key. -/
abbrev KeyVals := List (String × RegValue)

/-- The state of one key path under a root: absent (opening fails with
`E_FILENOTFOUND`), present with its named values, or failing to open with
some other condition (permission denied, corruption, ...). -/
inductive KeyState : Type
  | absent
  | present (vals : KeyVals)
  | erring (code : HRESULT)
deriving DecidableEq

/-- One registry root (HKEY_CURRENT_USER or HKEY_LOCAL_MACHINE): a finite
association of key paths to key states; unlisted paths are absent. -/
structure RootKey : Type where
  keys : List (String × KeyState)
deriving DecidableEq

/-- The state of a key path under a root (absent when unlisted). -/
def RootKey.lookup (r : RootKey) (path : String) : KeyState :=
  match r.keys.find? (fun p => p.1 == path) with
  | some p => p.2
  | none => .absent

/-- Replace the state of one key path, leaving every other path unchanged. -/
def RootKey.setKey (r : RootKey) (path : String) (st : KeyState) : RootKey :=
  ⟨(path, st) :: r.keys.filter (fun p => p.1 != path)⟩

/-- Modelled from the spec: the external store's `open(path)` call
(`Key::open` / `options().write().open` in the source's collaborator),
returning the key's values or a distinguished not-found outcome separately
from other errors. -/
def RootKey.openKey (r : RootKey) (path : String) : Except HRESULT KeyVals :=
  match r.lookup path with
  | .present vals => .ok vals
  | .absent => .error E_FILENOTFOUND
  | .erring c => .error c

/-- Modelled from the spec: the external store's `create(path)` call
(`Key::create`), opening the key path or creating it empty when absent. -/
def RootKey.createKey (r : RootKey) (path : String) :
    Except HRESULT (RootKey × KeyVals) :=
  match r.lookup path with
  | .present vals => .ok (r, vals)
  | .absent => .ok (r.setKey path (.present []), [])
  | .erring c => .error c

/-- The value stored under a name inside an open key, if any. -/
def KeyVals.getVal (vals : KeyVals) (name : String) : Option RegValue :=
  (vals.find? (fun p => p.1 == name)).map Prod.snd

/-- Set a named value inside an open key, overwriting any prior value. -/
def KeyVals.setVal (vals : KeyVals) (name : String) (v : RegValue) : KeyVals :=
  (name, v) :: vals.filter (fun p => p.1 != name)

/-- Modelled from the spec: the external store's `read_string(handle, name)`
(`Key::get_string`): the string stored under `name`, a distinguished
not-found outcome when the value is absent, and another error when the
stored value is not a string. -/
def KeyVals.get_string (vals : KeyVals) (name : String) : Except HRESULT String :=
  match KeyVals.getVal vals name with
  | some (.str s) => .ok s
  | some (.bytes _) => .error ERROR_UNSUPPORTED_TYPE
  | none => .error E_FILENOTFOUND

/-- Modelled from the spec: the external store's `read_bytes(handle, name)`
(`Key::get_value`): the raw data of the value stored under `name`, or a
distinguished not-found outcome when the value is absent. -/
def KeyVals.get_value (vals : KeyVals) (name : String) : Except HRESULT (List Nat) :=
  match KeyVals.getVal vals name with
  | some v => .ok v.asBytes
  | none => .error E_FILENOTFOUND

/-- Modelled from the spec: the external store's `delete_value(handle, name)`
(`Key::remove_value`): removes the value stored under `name`, returning the
distinguished not-found outcome when no such value exists. -/
def KeyVals.remove_value (vals : KeyVals) (name : String) : Except HRESULT KeyVals :=
  match KeyVals.getVal vals name with
  | some _ => .ok (vals.filter (fun p => p.1 != name))
  | none => .error E_FILENOTFOUND

/-- `AL_REGKEY`: the launch-registration key path. -/
def AL_REGKEY : String := "SOFTWARE\\Microsoft\\Windows\\CurrentVersion\\Run"

/-- `TASK_MANAGER_OVERRIDE_REGKEY`: the startup-manager override key path. -/
def TASK_MANAGER_OVERRIDE_REGKEY : String :=
  "SOFTWARE\\Microsoft\\Windows\\CurrentVersion\\Explorer\\StartupApproved\\Run"

/-- `TASK_MANAGER_OVERRIDE_ENABLED_VALUE`: the fixed 12-byte constant written
to the override store on enable. -/
def TASK_MANAGER_OVERRIDE_ENABLED_VALUE : List Nat :=
  [0x02, 0x00, 0x00, 0x00, 0x00, 0x00, 0x00, 0x00, 0x00, 0x00, 0x00, 0x00]

/-- The `AutoLaunch` value object: name, executable path, startup arguments
and the privilege flag selecting the root key. -/
structure AutoLaunch : Type where
  app_name : String
  app_path : String
  args : List String
  with_admin : Bool
deriving DecidableEq

/-- `AutoLaunch::new`: stores the inputs unchanged (each argument converted
to an owned string). -/
def AutoLaunch.new (app_name : String) (app_path : String) (args : List String)
    (with_admin : Bool) : AutoLaunch :=
  { app_name := app_name, app_path := app_path, args := args,
    with_admin := with_admin }

/-- The two registry roots a machine offers. -/
structure Machine : Type where
  current_user : RootKey
  local_machine : RootKey
deriving DecidableEq

/-- `AutoLaunch::root_key`: LOCAL_MACHINE when `with_admin`, else
CURRENT_USER. -/
def AutoLaunch.root_key (al : AutoLaunch) (m : Machine) : RootKey :=
  if al.with_admin then m.local_machine else m.current_user

/-- `last_eight_bytes_all_zeros`: errs on fewer than 8 bytes, otherwise
whether the last 8 bytes are all zero
(`bytes.iter().rev().take(8).all(|v| *v == 0u8)`). -/
def last_eight_bytes_all_zeros (bytes : List Nat) : Except String Bool :=
  if bytes.length < 8 then .error "Bytes too short"
  else .ok ((bytes.reverse.take 8).all (fun v => v == 0))

/-- The string value `format!("{} {}", &self.app_path, &self.args.join(" "))`
written under the app name on enable. -/
def AutoLaunch.regString (al : AutoLaunch) : String :=
  al.app_path ++ " " ++ String.intercalate " " al.args

/-- The override step of `enable_with_root_key` (the `match` on opening
`TASK_MANAGER_OVERRIDE_REGKEY` for writing): on success write the fixed
12-byte enabled constant under the app name; absorb not-found; propagate
every other failure. -/
def AutoLaunch.enableOverrideStep (al : AutoLaunch) (r2 : RootKey) :
    Except HRESULT RootKey :=
  match r2.openKey TASK_MANAGER_OVERRIDE_REGKEY with
  | .ok tmVals =>
      .ok (r2.setKey TASK_MANAGER_OVERRIDE_REGKEY
        (.present (KeyVals.setVal tmVals al.app_name
          (.bytes TASK_MANAGER_OVERRIDE_ENABLED_VALUE))))
  | .error e => if e = E_FILENOTFOUND then .ok r2 else .error e

/-- `AutoLaunch::enable_with_root_key`: create-or-open the Run key and set
the string value named by the app name to `regString`, overwriting any
prior value; then run the override step. -/
def AutoLaunch.enable_with_root_key (al : AutoLaunch) (r : RootKey) :
    Except HRESULT RootKey :=
  match r.createKey AL_REGKEY with
  | .error e => .error e
  | .ok (r1, vals) =>
      al.enableOverrideStep (r1.setKey AL_REGKEY
        (.present (KeyVals.setVal vals al.app_name (.str al.regString))))

/-- `AutoLaunch::disable_with_root_key`: open the Run key for writing,
absorbing not-found as success; when open, remove the value under the app
name, propagating any failure of the removal itself. -/
def AutoLaunch.disable_with_root_key (al : AutoLaunch) (r : RootKey) :
    Except HRESULT RootKey :=
  match r.openKey AL_REGKEY with
  | .ok vals =>
      match KeyVals.remove_value vals al.app_name with
      | .ok vals1 => .ok (r.setKey AL_REGKEY (.present vals1))
      | .error e => .error e
  | .error e => if e = E_FILENOTFOUND then .ok r else .error e

/-- `AutoLaunch::is_registered`: open the Run key and read the string value
under the app name; success means registered, not-found (of key or value)
means not registered, anything else propagates. -/
def AutoLaunch.is_registered (al : AutoLaunch) (r : RootKey) :
    Except HRESULT Bool :=
  match (r.openKey AL_REGKEY).bind
      (fun vals => KeyVals.get_string vals al.app_name) with
  | .ok _ => .ok true
  | .error e => if e = E_FILENOTFOUND then .ok false else .error e

/-- `AutoLaunch::is_task_manager_enabled`: open the override key and read the
raw value under the app name; decode with `last_eight_bytes_all_zeros`,
treating a too-short value as enabled (`unwrap_or(true)`); not-found (of key
or value) means enabled, anything else propagates. -/
def AutoLaunch.is_task_manager_enabled (al : AutoLaunch) (r : RootKey) :
    Except HRESULT Bool :=
  match (r.openKey TASK_MANAGER_OVERRIDE_REGKEY).bind
      (fun vals => KeyVals.get_value vals al.app_name) with
  | .ok value =>
      .ok (match last_eight_bytes_all_zeros value with
           | .ok b => b
           | .error _ => true)
  | .error e => if e = E_FILENOTFOUND then .ok true else .error e

/-- `AutoLaunch::is_enabled` over an explicit root key:
`Ok(self.is_registered(root_key)? && self.is_task_manager_enabled(root_key)?)`
with Rust's short-circuiting `&&`. -/
def AutoLaunch.is_enabled_with_root_key (al : AutoLaunch) (r : RootKey) :
    Except HRESULT Bool :=
  match al.is_registered r with
  | .ok true => al.is_task_manager_enabled r
  | .ok false => .ok false
  | .error e => .error e

/-- `AutoLaunch::is_enabled`: the query against the root selected by the
privilege flag. -/
def AutoLaunch.is_enabled (al : AutoLaunch) (m : Machine) : Except HRESULT Bool :=
  al.is_enabled_with_root_key (al.root_key m)

/-! ### Concrete entries and stores used to exercise the model -/

/-- The entry of the spec's end-to-end scenario 1. -/
def exEntry : AutoLaunch := AutoLaunch.new "MyApp" "/bin/myapp" ["--flag"] false

/-- The same entry constructed with an empty argument list. -/
def exEntryNoArgs : AutoLaunch := AutoLaunch.new "MyApp" "/bin/myapp" [] false

/-- A 12-byte override record whose trailing 8 bytes contain a non-zero
byte (the startup manager's "disabled" shape). -/
def exBlockedBytes : List Nat := [2, 0, 0, 0, 1, 0, 0, 0, 0, 0, 0, 0]

/-- Run-key values holding the scenario-1 registration. -/
def exRunVals : KeyVals := [("MyApp", .str "/bin/myapp --flag")]

/-- Override-key values suppressing the entry. -/
def exBlockedVals : KeyVals := [("MyApp", .bytes exBlockedBytes)]

/-- A root with both keys present: the entry registered but suppressed by
the override record. -/
def rBlocked : RootKey :=
  ⟨[(AL_REGKEY, .present exRunVals),
    (TASK_MANAGER_OVERRIDE_REGKEY, .present exBlockedVals)]⟩

/-- An empty root: both key paths absent. -/
def rEmpty : RootKey := ⟨[]⟩

/-- A root with only the Run key, the entry registered, override path
absent. -/
def rRunOnly : RootKey := ⟨[(AL_REGKEY, .present exRunVals)]⟩

/-- A root whose Run key exists but holds no values. -/
def rRunEmptyKey : RootKey := ⟨[(AL_REGKEY, .present ([] : KeyVals))]⟩

/-- A root where the entry is not registered and opening the override key
fails with an access-denied code. -/
def rOverrideErr : RootKey :=
  ⟨[(AL_REGKEY, .present ([] : KeyVals)),
    (TASK_MANAGER_OVERRIDE_REGKEY, .erring 0x80070005)]⟩

/-! ### Helper lemmas about the store model -/

/-- Finding by one name is unaffected by filtering out a different name. -/
theorem find?_filter_ne {α : Type} (l : List (String × α)) (p q : String)
    (hpq : q ≠ p) :
    (l.filter (fun x => x.1 != p)).find? (fun x => x.1 == q) =
      l.find? (fun x => x.1 == q) := by
  induction l with
  | nil => rfl
  | cons a l ih =>
    by_cases hq : a.1 = q
    · have h1 : (a.1 != p) = true := by
        subst hq; simpa [bne_iff_ne] using hpq
      simp [List.filter_cons, h1, List.find?, hq, hpq]
    · have h2 : (a.1 == q) = false := by simpa [beq_iff_eq] using hq
      by_cases hp : a.1 = p
      · have h3 : (a.1 != p) = false := by simpa [bne_iff_ne] using hp
        simp [List.filter_cons, h3, List.find?, h2, ih]
      · have h3 : (a.1 != p) = true := by simpa [bne_iff_ne] using hp
        simp [List.filter_cons, h3, List.find?, h2, ih]

/-- Reading back the key path just written. -/
theorem lookup_setKey_self (r : RootKey) (path : String) (st : KeyState) :
    (r.setKey path st).lookup path = st := by
  simp [RootKey.setKey, RootKey.lookup, List.find?]

/-- Writing one key path leaves every other path unchanged. -/
theorem lookup_setKey_ne (r : RootKey) (path q : String) (st : KeyState)
    (h : q ≠ path) :
    (r.setKey path st).lookup q = r.lookup q := by
  have h2 : (path == q) = false := by
    simpa [beq_iff_eq] using (Ne.symm h)
  simp [RootKey.setKey, RootKey.lookup, List.find?, h2,
    find?_filter_ne _ _ _ h]

/-- Reading back the value name just written. -/
theorem getVal_setVal_self (vals : KeyVals) (name : String) (v : RegValue) :
    KeyVals.getVal (KeyVals.setVal vals name v) name = some v := by
  simp [KeyVals.setVal, KeyVals.getVal, List.find?]

/-- The two managed key paths are distinct. -/
theorem tm_ne_al : TASK_MANAGER_OVERRIDE_REGKEY ≠ AL_REGKEY := by decide

/-- The code's reversed-take test coincides with "every byte of the trailing
8-byte window is zero". -/
theorem all_zero_tail_iff (b : List Nat) :
    ((b.reverse.take 8).all (fun v => v == 0) = true ↔
      ∀ x ∈ b.drop (b.length - 8), x = 0) := by
  have h : b.drop (b.length - 8) = (b.reverse.take 8).reverse := by
    simpa [List.rtake] using (List.rtake_eq_reverse_take_reverse (l := b) (n := 8))
  rw [h]
  simp [List.all_eq_true]

/-! ### Computation lemmas for the embedded operations -/

theorem is_registered_true_of_str (al : AutoLaunch) (r : RootKey)
    (vals : KeyVals) (s : String)
    (hAL : r.lookup AL_REGKEY = .present vals)
    (hv : KeyVals.getVal vals al.app_name = some (.str s)) :
    al.is_registered r = .ok true := by
  simp [AutoLaunch.is_registered, RootKey.openKey, hAL, KeyVals.get_string, hv,
    Except.bind]

theorem is_registered_false_of_none (al : AutoLaunch) (r : RootKey)
    (vals : KeyVals)
    (hAL : r.lookup AL_REGKEY = .present vals)
    (hv : KeyVals.getVal vals al.app_name = none) :
    al.is_registered r = .ok false := by
  simp [AutoLaunch.is_registered, RootKey.openKey, hAL, KeyVals.get_string, hv,
    Except.bind]

theorem is_registered_false_of_absent (al : AutoLaunch) (r : RootKey)
    (hAL : r.lookup AL_REGKEY = .absent) :
    al.is_registered r = .ok false := by
  simp [AutoLaunch.is_registered, RootKey.openKey, hAL, Except.bind]

theorem is_tm_of_bytes (al : AutoLaunch) (r : RootKey) (vals : KeyVals)
    (b : List Nat)
    (hTM : r.lookup TASK_MANAGER_OVERRIDE_REGKEY = .present vals)
    (hv : KeyVals.getVal vals al.app_name = some (.bytes b)) :
    al.is_task_manager_enabled r =
      .ok (match last_eight_bytes_all_zeros b with
           | .ok x => x
           | .error _ => true) := by
  simp [AutoLaunch.is_task_manager_enabled, RootKey.openKey, hTM,
    KeyVals.get_value, hv, Except.bind, RegValue.asBytes]

theorem is_tm_true_of_absent (al : AutoLaunch) (r : RootKey)
    (hTM : r.lookup TASK_MANAGER_OVERRIDE_REGKEY = .absent) :
    al.is_task_manager_enabled r = .ok true := by
  simp [AutoLaunch.is_task_manager_enabled, RootKey.openKey, hTM, Except.bind]

theorem is_tm_true_of_none (al : AutoLaunch) (r : RootKey) (vals : KeyVals)
    (hTM : r.lookup TASK_MANAGER_OVERRIDE_REGKEY = .present vals)
    (hv : KeyVals.getVal vals al.app_name = none) :
    al.is_task_manager_enabled r = .ok true := by
  simp [AutoLaunch.is_task_manager_enabled, RootKey.openKey, hTM,
    KeyVals.get_value, hv, Except.bind]

theorem is_tm_erring (al : AutoLaunch) (r : RootKey) (c : HRESULT)
    (hTM : r.lookup TASK_MANAGER_OVERRIDE_REGKEY = .erring c)
    (hc : c ≠ E_FILENOTFOUND) :
    al.is_task_manager_enabled r = .error c := by
  simp [AutoLaunch.is_task_manager_enabled, RootKey.openKey, hTM, Except.bind,
    hc]

theorem enable_eq_of_present (al : AutoLaunch) (r : RootKey) (vals : KeyVals)
    (hAL : r.lookup AL_REGKEY = .present vals) :
    al.enable_with_root_key r =
      al.enableOverrideStep (r.setKey AL_REGKEY
        (.present (KeyVals.setVal vals al.app_name (.str al.regString)))) := by
  simp [AutoLaunch.enable_with_root_key, RootKey.createKey, hAL]

theorem enable_eq_of_absent (al : AutoLaunch) (r : RootKey)
    (hAL : r.lookup AL_REGKEY = .absent) :
    al.enable_with_root_key r =
      al.enableOverrideStep ((r.setKey AL_REGKEY (.present [])).setKey AL_REGKEY
        (.present (KeyVals.setVal [] al.app_name (.str al.regString)))) := by
  simp [AutoLaunch.enable_with_root_key, RootKey.createKey, hAL]

theorem enable_erring (al : AutoLaunch) (r : RootKey) (c : HRESULT)
    (hAL : r.lookup AL_REGKEY = .erring c) :
    al.enable_with_root_key r = .error c := by
  simp [AutoLaunch.enable_with_root_key, RootKey.createKey, hAL]

theorem ovStep_of_present (al : AutoLaunch) (r2 : RootKey) (tm : KeyVals)
    (h : r2.lookup TASK_MANAGER_OVERRIDE_REGKEY = .present tm) :
    al.enableOverrideStep r2 =
      .ok (r2.setKey TASK_MANAGER_OVERRIDE_REGKEY
        (.present (KeyVals.setVal tm al.app_name
          (.bytes TASK_MANAGER_OVERRIDE_ENABLED_VALUE)))) := by
  simp [AutoLaunch.enableOverrideStep, RootKey.openKey, h]

theorem ovStep_of_absent (al : AutoLaunch) (r2 : RootKey)
    (h : r2.lookup TASK_MANAGER_OVERRIDE_REGKEY = .absent) :
    al.enableOverrideStep r2 = .ok r2 := by
  simp [AutoLaunch.enableOverrideStep, RootKey.openKey, h]

theorem ovStep_of_erring (al : AutoLaunch) (r2 : RootKey) (c : HRESULT)
    (h : r2.lookup TASK_MANAGER_OVERRIDE_REGKEY = .erring c)
    (hc : c ≠ E_FILENOTFOUND) :
    al.enableOverrideStep r2 = .error c := by
  simp [AutoLaunch.enableOverrideStep, RootKey.openKey, h, hc]

theorem disable_eq_of_absent (al : AutoLaunch) (r : RootKey)
    (hAL : r.lookup AL_REGKEY = .absent) :
    al.disable_with_root_key r = .ok r := by
  simp [AutoLaunch.disable_with_root_key, RootKey.openKey, hAL]

theorem disable_eq_of_present (al : AutoLaunch) (r : RootKey) (vals : KeyVals)
    (hAL : r.lookup AL_REGKEY = .present vals) :
    al.disable_with_root_key r =
      match KeyVals.remove_value vals al.app_name with
      | .ok vals1 => .ok (r.setKey AL_REGKEY (.present vals1))
      | .error e => .error e := by
  simp [AutoLaunch.disable_with_root_key, RootKey.openKey, hAL]

/-- The code's reversed-take test, as a Bool, equals the same test on the
trailing 8-byte window taken with `drop`. -/
theorem all_tail_comm (b : List Nat) :
    ((b.reverse.take 8).all (fun v => v == 0)) =
      ((b.drop (b.length - 8)).all (fun v => v == 0)) := by
  have h : b.drop (b.length - 8) = (b.reverse.take 8).reverse := by
    simpa [List.rtake] using (List.rtake_eq_reverse_take_reverse (l := b) (n := 8))
  rw [h, List.all_reverse]

theorem disable_eq_of_erring (al : AutoLaunch) (r : RootKey) (c : HRESULT)
    (hAL : r.lookup AL_REGKEY = .erring c) :
    al.disable_with_root_key r =
      if c = E_FILENOTFOUND then .ok r else .error c := by
  simp [AutoLaunch.disable_with_root_key, RootKey.openKey, hAL]

/-! ### The claims -/

/-- C1: for every entry, `is_enabled()` returns true iff both sub-checks
return true (`is_registered` and `is_task_manager_enabled`); in particular,
when registered but the override value's trailing 8 bytes contain a
non-zero byte, `is_enabled()` returns false. -/
theorem spec_C1 (al : AutoLaunch) (r : RootKey) :
    (al.is_enabled_with_root_key r = .ok true ↔
      (al.is_registered r = .ok true ∧
        al.is_task_manager_enabled r = .ok true)) ∧
    (∀ vals b, al.is_registered r = .ok true →
      r.lookup TASK_MANAGER_OVERRIDE_REGKEY = .present vals →
      KeyVals.getVal vals al.app_name = some (.bytes b) →
      8 ≤ b.length →
      (∃ x ∈ b.drop (b.length - 8), x ≠ 0) →
      al.is_enabled_with_root_key r = .ok false) := by
  constructor
  · rcases hreg : al.is_registered r with e | bb
    · simp [AutoLaunch.is_enabled_with_root_key, hreg]
    · cases bb
      · simp [AutoLaunch.is_enabled_with_root_key, hreg]
      · simp [AutoLaunch.is_enabled_with_root_key, hreg]
  · intro vals b hreg hTM hv hlen hnz
    have htm := is_tm_of_bytes al r vals b hTM hv
    have hall : ((b.reverse.take 8).all (fun v => v == 0)) = false := by
      rcases hnz with ⟨x, hx, hx0⟩
      rcases Bool.eq_false_or_eq_true
          ((b.reverse.take 8).all (fun v => v == 0)) with h | h
      · exact absurd ((all_zero_tail_iff b).mp h x hx) hx0
      · exact h
    have h8 : ¬ (b.length < 8) := Nat.not_lt.mpr hlen
    have htm' : al.is_task_manager_enabled r = .ok false := by
      rw [htm]
      simp [last_eight_bytes_all_zeros, h8, hall]
    simp [AutoLaunch.is_enabled_with_root_key, hreg, htm']

/-- C1 witness: on a concrete root where the entry is registered and the
stored override record has a non-zero byte in its trailing window,
`is_enabled` returns false. -/
theorem spec_C1_witness :
    exEntry.is_enabled_with_root_key rBlocked = .ok false :=
  (spec_C1 exEntry rBlocked).2 exBlockedVals exBlockedBytes
    (by rfl) (by rfl) (by rfl) (by decide) (by decide)

/-- C2: the override-permitting check on a byte-sequence value of at least
8 bytes returns exactly the boolean "trailing 8 bytes all zero" (so true
iff they are all zero); on a value shorter than 8 bytes it returns true;
and when the override key path or the value is absent it returns true. -/
theorem spec_C2 (al : AutoLaunch) (r : RootKey) (vals : KeyVals)
    (b : List Nat) :
    (r.lookup TASK_MANAGER_OVERRIDE_REGKEY = .present vals →
      KeyVals.getVal vals al.app_name = some (.bytes b) →
      ((8 ≤ b.length →
          al.is_task_manager_enabled r =
            .ok ((b.drop (b.length - 8)).all (fun v => v == 0)) ∧
          (al.is_task_manager_enabled r = .ok true ↔
            ∀ x ∈ b.drop (b.length - 8), x = 0)) ∧
        (b.length < 8 → al.is_task_manager_enabled r = .ok true))) ∧
    (r.lookup TASK_MANAGER_OVERRIDE_REGKEY = .absent →
      al.is_task_manager_enabled r = .ok true) ∧
    (r.lookup TASK_MANAGER_OVERRIDE_REGKEY = .present vals →
      KeyVals.getVal vals al.app_name = none →
      al.is_task_manager_enabled r = .ok true) := by
  refine ⟨?_, ?_, ?_⟩
  · intro hTM hv
    have htm := is_tm_of_bytes al r vals b hTM hv
    constructor
    · intro hlen
      have h8 : ¬ (b.length < 8) := Nat.not_lt.mpr hlen
      have heq : al.is_task_manager_enabled r =
          .ok ((b.drop (b.length - 8)).all (fun v => v == 0)) := by
        rw [htm]
        simp [last_eight_bytes_all_zeros, h8, all_tail_comm]
      refine ⟨heq, ?_⟩
      rw [heq]
      simp [List.all_eq_true]
    · intro hlen
      rw [htm]
      simp [last_eight_bytes_all_zeros, hlen]
  · intro hTM
    exact is_tm_true_of_absent al r hTM
  · intro hTM hv
    exact is_tm_true_of_none al r vals hTM hv

/-- C2 witness: on an empty root the check permits; on a root storing a
12-byte record with a non-zero byte in the trailing window it refuses. -/
theorem spec_C2_witness :
    exEntry.is_task_manager_enabled rEmpty = .ok true ∧
    exEntry.is_task_manager_enabled rBlocked = .ok false := by
  constructor
  · exact (spec_C2 exEntry rEmpty [] []).2.1 (by rfl)
  · exact (((spec_C2 exEntry rBlocked exBlockedVals exBlockedBytes).1
      (by rfl) (by rfl)).1 (by decide)).1

/-- C9: when the registration check yields `Ok(false)` (key path or value
not found), `is_enabled()` returns `Ok(false)` without consulting the
override store, so an error the override read would produce is not
surfaced. -/
theorem spec_C9 (al : AutoLaunch) (r : RootKey)
    (h : al.is_registered r = .ok false) :
    al.is_enabled_with_root_key r = .ok false := by
  simp [AutoLaunch.is_enabled_with_root_key, h]

/-- C9 witness: on a root where the entry is unregistered and the override
key errs with access denied, `is_enabled` still returns `Ok(false)`. -/
theorem spec_C9_witness :
    exEntry.is_enabled_with_root_key rOverrideErr = .ok false :=
  spec_C9 exEntry rOverrideErr (by rfl)

/-- C3 counterexample: on a concrete root whose launch-registration key
exists but holds no value for the entry, `disable()` does not succeed: it
returns the not-found error propagated from the removal itself. -/
theorem spec_C3_cex :
    exEntry.disable_with_root_key rRunEmptyKey = .error E_FILENOTFOUND := by
  rfl

/-- C3 (amended): `disable()` on an already-disabled entry succeeds without
error when the launch-registration key path does not exist (not-found
absorbed); when the key path exists but no value named after the entry is
present under it, the not-found failure of the removal itself is propagated
as an error. -/
theorem spec_C3 (al : AutoLaunch) (r : RootKey) (vals : KeyVals) :
    (r.lookup AL_REGKEY = .absent → al.disable_with_root_key r = .ok r) ∧
    (r.lookup AL_REGKEY = .present vals →
      KeyVals.getVal vals al.app_name = none →
      al.disable_with_root_key r = .error E_FILENOTFOUND) := by
  constructor
  · intro hAL
    exact disable_eq_of_absent al r hAL
  · intro hAL hv
    rw [disable_eq_of_present al r vals hAL]
    simp [KeyVals.remove_value, hv]

/-- C3 witness: on the empty root `disable` is a no-op success; on the root
with an empty Run key it propagates the removal's not-found error. -/
theorem spec_C3_witness :
    exEntry.disable_with_root_key rEmpty = .ok rEmpty ∧
    exEntry.disable_with_root_key rRunEmptyKey = .error E_FILENOTFOUND :=
  ⟨(spec_C3 exEntry rEmpty []).1 (by rfl),
   (spec_C3 exEntry rRunEmptyKey []).2 (by rfl) (by rfl)⟩

/-- C8: `disable()` performs no write on the override store: whenever it
succeeds, the state of the override key path (hence the override value for
the entry's name) is exactly what it was before the call. -/
theorem spec_C8 (al : AutoLaunch) (r r' : RootKey)
    (h : al.disable_with_root_key r = .ok r') :
    r'.lookup TASK_MANAGER_OVERRIDE_REGKEY =
      r.lookup TASK_MANAGER_OVERRIDE_REGKEY := by
  rcases hAL : r.lookup AL_REGKEY with _ | vals | c
  · rw [disable_eq_of_absent al r hAL] at h
    cases h
    rfl
  · rw [disable_eq_of_present al r vals hAL] at h
    rcases hrm : KeyVals.remove_value vals al.app_name with e | vals1
    · rw [hrm] at h
      simp at h
    · rw [hrm] at h
      cases h
      exact lookup_setKey_ne r AL_REGKEY TASK_MANAGER_OVERRIDE_REGKEY _ tm_ne_al
  · rw [disable_eq_of_erring al r c hAL] at h
    by_cases hc : c = E_FILENOTFOUND
    · rw [if_pos hc] at h
      cases h
      rfl
    · rw [if_neg hc] at h
      simp at h

/-- C8 witness: removing the registration on the suppressed root leaves the
override key's state untouched. -/
theorem spec_C8_witness :
    (rBlocked.setKey AL_REGKEY (.present ([] : KeyVals))).lookup
        TASK_MANAGER_OVERRIDE_REGKEY =
      rBlocked.lookup TASK_MANAGER_OVERRIDE_REGKEY :=
  spec_C8 exEntry rBlocked _ (by rfl)

theorem ovStep_of_erring_eq (al : AutoLaunch) (r2 : RootKey) (c : HRESULT)
    (h : r2.lookup TASK_MANAGER_OVERRIDE_REGKEY = .erring c) :
    al.enableOverrideStep r2 = if c = E_FILENOTFOUND then .ok r2 else .error c := by
  simp [AutoLaunch.enableOverrideStep, RootKey.openKey, h]

/-- The override step never touches the Run key. -/
theorem ovStep_preserves_al (al : AutoLaunch) (r2 r' : RootKey)
    (h : al.enableOverrideStep r2 = .ok r') :
    r'.lookup AL_REGKEY = r2.lookup AL_REGKEY := by
  rcases hTM : r2.lookup TASK_MANAGER_OVERRIDE_REGKEY with _ | tm | c
  · rw [ovStep_of_absent al r2 hTM] at h
    cases h
    rfl
  · rw [ovStep_of_present al r2 tm hTM] at h
    cases h
    exact lookup_setKey_ne _ _ _ _ (Ne.symm tm_ne_al)
  · rw [ovStep_of_erring_eq al r2 c hTM] at h
    by_cases hc : c = E_FILENOTFOUND
    · rw [if_pos hc] at h
      cases h
      rfl
    · rw [if_neg hc] at h
      simp at h

/-- When the Run key does not err, `enable` reduces to the override step on
an intermediate root where the registration string has been written and the
override key path is as in the original root. -/
theorem enable_step (al : AutoLaunch) (r : RootKey)
    (hAL : ∀ c, r.lookup AL_REGKEY ≠ .erring c) :
    ∃ vals0 r2, al.enable_with_root_key r = al.enableOverrideStep r2 ∧
      r2.lookup AL_REGKEY =
        .present (KeyVals.setVal vals0 al.app_name (.str al.regString)) ∧
      r2.lookup TASK_MANAGER_OVERRIDE_REGKEY =
        r.lookup TASK_MANAGER_OVERRIDE_REGKEY := by
  rcases hA : r.lookup AL_REGKEY with _ | vals | c
  · refine ⟨[], _, enable_eq_of_absent al r hA, lookup_setKey_self _ _ _, ?_⟩
    rw [lookup_setKey_ne _ _ _ _ tm_ne_al, lookup_setKey_ne _ _ _ _ tm_ne_al]
  · refine ⟨vals, _, enable_eq_of_present al r vals hA,
      lookup_setKey_self _ _ _, ?_⟩
    rw [lookup_setKey_ne _ _ _ _ tm_ne_al]
  · exact absurd hA (hAL c)

/-- A successful `enable` implies the Run key was not erring. -/
theorem enable_ok_not_erring (al : AutoLaunch) (r r' : RootKey)
    (h : al.enable_with_root_key r = .ok r') (c : HRESULT) :
    r.lookup AL_REGKEY ≠ .erring c := by
  intro hA
  rw [enable_erring al r c hA] at h
  simp at h

/-- A successful `enable` leaves the registration string readable under the
app name. -/
theorem enable_ok_reg (al : AutoLaunch) (r r' : RootKey)
    (h : al.enable_with_root_key r = .ok r') :
    ∃ vals, r'.lookup AL_REGKEY = .present vals ∧
      KeyVals.getVal vals al.app_name = some (.str al.regString) := by
  obtain ⟨vals0, r2, heq, hAL2, hTM2⟩ :=
    enable_step al r (enable_ok_not_erring al r r' h)
  rw [heq] at h
  have hpres := ovStep_preserves_al al r2 r' h
  exact ⟨_, by rw [hpres, hAL2], getVal_setVal_self _ _ _⟩

/-- C4: whenever `enable()` succeeds, the launch-registration string value
named after the entry is exactly the executable path, a single space, and
the arguments joined by single spaces, overwriting any prior value. -/
theorem spec_C4 (al : AutoLaunch) (r r' : RootKey)
    (h : al.enable_with_root_key r = .ok r') :
    ∃ vals, r'.lookup AL_REGKEY = .present vals ∧
      KeyVals.getVal vals al.app_name =
        some (.str (al.app_path ++ " " ++ String.intercalate " " al.args)) := by
  simpa [AutoLaunch.regString] using enable_ok_reg al r r' h

/-- C4 witness: enabling the scenario-1 entry on the empty root stores
exactly the string `"/bin/myapp --flag"` under `"MyApp"`. -/
theorem spec_C4_witness :
    ∃ vals, ((rEmpty.setKey AL_REGKEY (.present ([] : KeyVals))).setKey
        AL_REGKEY (.present (KeyVals.setVal [] "MyApp"
          (.str "/bin/myapp --flag")))).lookup AL_REGKEY = .present vals ∧
      KeyVals.getVal vals "MyApp" = some (.str "/bin/myapp --flag") :=
  spec_C4 exEntry rEmpty _ (by rfl)

/-- C10: for an entry with an empty argument list, a successful `enable()`
stores the executable path followed by a single trailing space, never the
bare path. -/
theorem spec_C10 (al : AutoLaunch) (r r' : RootKey)
    (hargs : al.args = [])
    (h : al.enable_with_root_key r = .ok r') :
    ∃ vals, r'.lookup AL_REGKEY = .present vals ∧
      KeyVals.getVal vals al.app_name = some (.str (al.app_path ++ " ")) := by
  have hs : al.regString = al.app_path ++ " " := by
    rw [AutoLaunch.regString, hargs]
    show al.app_path ++ " " ++ "" = al.app_path ++ " "
    rw [String.append_empty]
  simpa [hs] using enable_ok_reg al r r' h

/-- C10 witness: enabling the argument-less entry on the empty root stores
exactly `"/bin/myapp "`. -/
theorem spec_C10_witness :
    ∃ vals, ((rEmpty.setKey AL_REGKEY (.present ([] : KeyVals))).setKey
        AL_REGKEY (.present (KeyVals.setVal [] "MyApp"
          (.str "/bin/myapp ")))).lookup AL_REGKEY = .present vals ∧
      KeyVals.getVal vals "MyApp" = some (.str "/bin/myapp ") :=
  spec_C10 exEntryNoArgs rEmpty _ (by rfl) (by rfl)

/-- C7: when `enable()` finds the override key path openable and succeeds,
it has written under the app name exactly the fixed 12-byte sequence whose
leading 4 bytes are `02 00 00 00` and whose trailing 8 bytes are all
zero. -/
theorem spec_C7 (al : AutoLaunch) (r r' : RootKey) (tm : KeyVals)
    (hTM : r.lookup TASK_MANAGER_OVERRIDE_REGKEY = .present tm)
    (h : al.enable_with_root_key r = .ok r') :
    ∃ vals', r'.lookup TASK_MANAGER_OVERRIDE_REGKEY = .present vals' ∧
      KeyVals.getVal vals' al.app_name =
        some (.bytes TASK_MANAGER_OVERRIDE_ENABLED_VALUE) ∧
      TASK_MANAGER_OVERRIDE_ENABLED_VALUE.length = 12 ∧
      TASK_MANAGER_OVERRIDE_ENABLED_VALUE.take 4 = [0x02, 0x00, 0x00, 0x00] ∧
      (∀ x ∈ TASK_MANAGER_OVERRIDE_ENABLED_VALUE.drop 4, x = 0) := by
  obtain ⟨vals0, r2, heq, hAL2, hTM2⟩ :=
    enable_step al r (enable_ok_not_erring al r r' h)
  rw [heq] at h
  rw [hTM] at hTM2
  rw [ovStep_of_present al r2 tm hTM2] at h
  cases h
  exact ⟨_, lookup_setKey_self _ _ _, getVal_setVal_self _ _ _,
    by decide, by decide, by decide⟩

/-- C7 witness: enabling on the suppressed root overwrites the override
record for `"MyApp"` with the fixed enabled constant. -/
theorem spec_C7_witness :
    ∃ vals', ((rBlocked.setKey AL_REGKEY
        (.present (KeyVals.setVal exRunVals "MyApp"
          (.str "/bin/myapp --flag")))).setKey TASK_MANAGER_OVERRIDE_REGKEY
        (.present (KeyVals.setVal exBlockedVals "MyApp"
          (.bytes TASK_MANAGER_OVERRIDE_ENABLED_VALUE)))).lookup
        TASK_MANAGER_OVERRIDE_REGKEY = .present vals' ∧
      KeyVals.getVal vals' "MyApp" =
        some (.bytes TASK_MANAGER_OVERRIDE_ENABLED_VALUE) ∧
      TASK_MANAGER_OVERRIDE_ENABLED_VALUE.length = 12 ∧
      TASK_MANAGER_OVERRIDE_ENABLED_VALUE.take 4 = [0x02, 0x00, 0x00, 0x00] ∧
      (∀ x ∈ TASK_MANAGER_OVERRIDE_ENABLED_VALUE.drop 4, x = 0) :=
  spec_C7 exEntry rBlocked _ exBlockedVals (by rfl) (by rfl)

/-- C6: in `enable()`'s override step, a not-found failure of the open is
absorbed: the call succeeds without creating the override path and without
writing any override value; any other failure of that open is propagated
with the underlying error code. -/
theorem spec_C6 (al : AutoLaunch) (r : RootKey) (c : HRESULT)
    (hAL : ∀ e, r.lookup AL_REGKEY ≠ .erring e) :
    (r.lookup TASK_MANAGER_OVERRIDE_REGKEY = .absent →
      ∃ r', al.enable_with_root_key r = .ok r' ∧
        r'.lookup TASK_MANAGER_OVERRIDE_REGKEY = .absent) ∧
    (r.lookup TASK_MANAGER_OVERRIDE_REGKEY = .erring c →
      c ≠ E_FILENOTFOUND →
      al.enable_with_root_key r = .error c) := by
  obtain ⟨vals0, r2, heq, hAL2, hTM2⟩ := enable_step al r hAL
  constructor
  · intro hTM
    rw [hTM] at hTM2
    exact ⟨r2, by rw [heq, ovStep_of_absent al r2 hTM2], hTM2⟩
  · intro hTM hc
    rw [hTM] at hTM2
    rw [heq, ovStep_of_erring_eq al r2 c hTM2, if_neg hc]

/-- C6 witness: with the override path absent, enable succeeds and still
does not create it; with the open failing with access denied, enable
returns that very code. -/
theorem spec_C6_witness :
    (∃ r', exEntry.enable_with_root_key rRunOnly = .ok r' ∧
      r'.lookup TASK_MANAGER_OVERRIDE_REGKEY = .absent) ∧
    exEntry.enable_with_root_key rOverrideErr = .error 0x80070005 := by
  constructor
  · exact (spec_C6 exEntry rRunOnly 0
      (by intro e h; simp [rRunOnly, RootKey.lookup] at h)).1 (by rfl)
  · exact (spec_C6 exEntry rOverrideErr 0x80070005
      (by intro e h; simp [rOverrideErr, RootKey.lookup, AL_REGKEY] at h)).2
      (by rfl) (by decide)

/-- C5: with neither store interfering (the Run key present or absent, the
override key present or absent), `enable()` succeeds and `is_enabled()` on
the resulting root returns true. -/
theorem spec_C5 (al : AutoLaunch) (r : RootKey)
    (hAL : ∀ c, r.lookup AL_REGKEY ≠ .erring c)
    (hTM : ∀ c, r.lookup TASK_MANAGER_OVERRIDE_REGKEY ≠ .erring c) :
    ∃ r', al.enable_with_root_key r = .ok r' ∧
      al.is_enabled_with_root_key r' = .ok true := by
  obtain ⟨vals0, r2, heq, hAL2, hTM2⟩ := enable_step al r hAL
  rcases hT : r.lookup TASK_MANAGER_OVERRIDE_REGKEY with _ | tm | c
  · rw [hT] at hTM2
    refine ⟨r2, by rw [heq, ovStep_of_absent al r2 hTM2], ?_⟩
    have hreg := is_registered_true_of_str al r2 _ _ hAL2
      (getVal_setVal_self _ _ _)
    have htm := is_tm_true_of_absent al r2 hTM2
    simp [AutoLaunch.is_enabled_with_root_key, hreg, htm]
  · rw [hT] at hTM2
    refine ⟨r2.setKey TASK_MANAGER_OVERRIDE_REGKEY
      (.present (KeyVals.setVal tm al.app_name
        (.bytes TASK_MANAGER_OVERRIDE_ENABLED_VALUE))),
      by rw [heq, ovStep_of_present al r2 tm hTM2], ?_⟩
    have hAL3 : (r2.setKey TASK_MANAGER_OVERRIDE_REGKEY
        (.present (KeyVals.setVal tm al.app_name
          (.bytes TASK_MANAGER_OVERRIDE_ENABLED_VALUE)))).lookup AL_REGKEY =
        .present (KeyVals.setVal vals0 al.app_name (.str al.regString)) := by
      rw [lookup_setKey_ne _ _ _ _ (Ne.symm tm_ne_al), hAL2]
    have hreg := is_registered_true_of_str al _ _ _ hAL3
      (getVal_setVal_self _ _ _)
    have htm := is_tm_of_bytes al
      (r2.setKey TASK_MANAGER_OVERRIDE_REGKEY
        (.present (KeyVals.setVal tm al.app_name
          (.bytes TASK_MANAGER_OVERRIDE_ENABLED_VALUE))))
      (KeyVals.setVal tm al.app_name
        (.bytes TASK_MANAGER_OVERRIDE_ENABLED_VALUE))
      TASK_MANAGER_OVERRIDE_ENABLED_VALUE
      (lookup_setKey_self _ _ _) (getVal_setVal_self _ _ _)
    have htm' : AutoLaunch.is_task_manager_enabled al
        (r2.setKey TASK_MANAGER_OVERRIDE_REGKEY
          (.present (KeyVals.setVal tm al.app_name
            (.bytes TASK_MANAGER_OVERRIDE_ENABLED_VALUE)))) = .ok true := by
      rw [htm]
      rfl
    simp [AutoLaunch.is_enabled_with_root_key, hreg, htm']
  · exact absurd hT (hTM c)

/-- C5 witness: on the empty root, enabling the scenario-1 entry succeeds
and the entry then reads back as enabled. -/
theorem spec_C5_witness :
    ∃ r', exEntry.enable_with_root_key rEmpty = .ok r' ∧
      exEntry.is_enabled_with_root_key r' = .ok true :=
  spec_C5 exEntry rEmpty
    (by intro c h; simp [rEmpty, RootKey.lookup] at h)
    (by intro c h; simp [rEmpty, RootKey.lookup] at h)

end AutoLaunchSpec
